import Mathlib

/-!
Shallow embedding of `src/verify.py` (GitHub asset-verification script).

The script checks a target file in a GitHub repository in four sequential
steps: existence, structure, content accuracy, commit record. Pure string
logic (substring search, line splitting, digit extraction, rule dispatch,
the orchestration order) is translated directly from the Python source.
External effects are abstracted:

* the GitHub HTTP API is a parameter (`Api`): `contents` maps a path/branch
  pair to the parsed JSON of the `contents` endpoint (`none` = failed call:
  404, other status, or transport exception, cf. `call_github_api`);
  `commitsOk`/`commits` model the `commits` endpoint (see `commitsEndpoint`);
* Python's `base64.b64decode(..).decode("utf-8")` chain is a parameter
  `decode : String → Option String` (`none` = exception, cf. the
  `try/except` in `get_repo_file_content`);
* Python's regular-expression engine `re.search` is a parameter
  `reSearch : String → String → Bool` (pattern, text); the case-insensitive
  compilation used by `search_commits` (`re.IGNORECASE`) is a separate
  parameter `reSearchIC`. The one concrete regex of the script, `(\d+)`
  in `verify_content_accuracy`, is implemented directly as `firstDigitRun`
  (digits being ASCII `0-9`).
-/

namespace Verify

/-- Test whether the char list `sub` is a prefix of `l`. Helper for the
substring test below. -/
def isPre : List Char → List Char → Bool
  | [], _ => true
  | _ :: _, [] => false
  | a :: ra, b :: rb => a = b && isPre ra rb

/-- Test whether `sub` occurs contiguously inside `hay` (char lists). -/
def hasSub : List Char → List Char → Bool
  | [], sub => sub.isEmpty
  | h :: t, sub => isPre sub (h :: t) || hasSub t sub

/-- Python's substring operator `sub in hay` on `str`, as used by
`verify_file_structure` (line 181) and `verify_content_accuracy`
(lines 212, 223). -/
def strContains (hay sub : String) : Bool :=
  hasSub hay.data sub.data

/-- Python's `content.split("\n")` (line 202): split on every newline,
keeping empty pieces. Lines are kept as char lists. -/
def splitNl : List Char → List (List Char)
  | [] => [[]]
  | c :: cs =>
    if c = '\n' then [] :: splitNl cs
    else
      match splitNl cs with
      | [] => [[c]]
      | l :: ls => (c :: l) :: ls

/-- Python's `re.search(r"(\d+)", line)` followed by `.group(1)` (line 213):
the first maximal run of digits in the line, `none` when the line has no
digit. -/
def firstDigitRun : List Char → Option (List Char)
  | [] => none
  | c :: cs =>
    if c.isDigit then some (c :: cs.takeWhile Char.isDigit)
    else firstDigitRun cs

/-- One entry of `VERIFICATION_CONFIG["content_rules"]`: the `type`,
`target` and `expected` keys (the Python dict's `type` key is called
`ruleType` here since `type` cannot be a field name in Lean). -/
structure ContentRule where
  ruleType : String
  target : String
  expected : String
deriving DecidableEq

/-- The `stat_match` loop of `verify_content_accuracy` (lines 210-216):
scan the lines in order; on a line containing the target, compare the
line's first digit run with the expected text; stop with success at the
first line where they agree, otherwise keep scanning. -/
def statScan (target expected : String) : List (List Char) → Bool
  | [] => false
  | l :: ls =>
    if hasSub l target.data then
      match firstDigitRun l with
      | some d => if d = expected.data then true else statScan target expected ls
      | none => statScan target expected ls
    else statScan target expected ls

/-- The rule dispatch of `verify_content_accuracy` (lines 210-224): the
`stat_match` branch works on the split lines, the `regex_match` and
`text_match` branches on the whole content; any other `type` leaves
`matched = False`. -/
def contentRuleMatches (reSearch : String → String → Bool) (content : String)
    (lines : List (List Char)) (rule : ContentRule) : Bool :=
  if rule.ruleType = "stat_match" then
    statScan rule.target rule.expected lines
  else if rule.ruleType = "regex_match" then
    reSearch rule.expected content
  else if rule.ruleType = "text_match" then
    strContains content rule.expected
  else false

/-- The rule loop of `verify_content_accuracy` (lines 204-228): rules in
configured order, `return False` at the first rule that did not match
(so later rules are not evaluated), `True` when the list is exhausted. -/
def contentRulesScan (reSearch : String → String → Bool) (content : String)
    (lines : List (List Char)) : List ContentRule → Bool
  | [] => true
  | r :: rs =>
    if contentRuleMatches reSearch content lines r then
      contentRulesScan reSearch content lines rs
    else false

/-- `verify_content_accuracy` (lines 191-231): an empty rule list passes
trivially (lines 197-199); otherwise the content is split on newlines once
and the rules are scanned in order. -/
def verify_content_accuracy (reSearch : String → String → Bool)
    (content : String) (rules : List ContentRule) : Bool :=
  contentRulesScan reSearch content (splitNl content.data) rules

/-- The `missing` list built by `verify_file_structure` (lines 179-182):
the required structures absent from the content, in configured order. -/
def missingStructures (content : String) : List String → List String
  | [] => []
  | s :: rest =>
    if strContains content s then missingStructures content rest
    else s :: missingStructures content rest

/-- `verify_file_structure` (lines 171-188): passes exactly when the
`missing` list is empty (lines 184-188). -/
def verify_file_structure (content : String) (required : List String) : Bool :=
  (missingStructures content required).isEmpty

/-- The `commit_verification` entry of the configuration: `msg_pattern`
plus the optional `max_commits` key (read with default 10 at line 247). -/
structure CommitRule where
  msg_pattern : String
  max_commits : Option Nat
deriving DecidableEq

/-- Parsed JSON of the `contents/...` endpoint, restricted to the one key
the script reads: `content` (the base64 payload; `none` = key missing, in
which case line 122 falls back to `""`). -/
structure ApiResponse where
  content : Option String
deriving DecidableEq

/-- Abstraction of the GitHub API reached through `call_github_api`:
`contents path branch` is the outcome of `contents/.path.?ref=.branch.`
(`none` = failed call); `commitsOk` and `commits` describe the
`commits` endpoint, see `commitsEndpoint`. -/
structure Api where
  contents : String → String → Option ApiResponse
  commitsOk : Bool
  commits : List String

/-- Modelled from the spec: the remote `commits?per_page=N` endpoint is not
part of the repository; per the spec it returns "up to N most recent
commits", modelled as truncating the repository's full recent-commit
message sequence to the first `perPage` entries, with `none` on a failed
call. -/
def commitsEndpoint (api : Api) (perPage : Nat) : Option (List String) :=
  if api.commitsOk then some (api.commits.take perPage) else none

/-- The message loop of `search_commits` (lines 143-146): first match wins,
`False` when no message matches. `reSearchIC` stands for the search of the
case-insensitively compiled pattern (line 142). -/
def scanMsgs (reSearchIC : String → String → Bool) (pat : String) : List String → Bool
  | [] => false
  | m :: ms => if reSearchIC pat m then true else scanMsgs reSearchIC pat ms

/-- `search_commits` (lines 128-146): fetch up to `maxCommits` commits;
a failed fetch is `False`, otherwise scan the returned messages in order. -/
def search_commits (reSearchIC : String → String → Bool) (api : Api)
    (pat : String) (maxCommits : Nat) : Bool :=
  match commitsEndpoint api maxCommits with
  | none => false
  | some msgs => scanMsgs reSearchIC pat msgs

/-- `verify_commit_record` (lines 234-255): no configured rule passes
trivially (lines 242-244); otherwise `search_commits` with the configured
pattern and `max_commits` defaulted to 10 (line 247). -/
def verify_commit_record (reSearchIC : String → String → Bool) (api : Api) :
    Option CommitRule → Bool
  | none => true
  | some cfg => search_commits reSearchIC api cfg.msg_pattern (cfg.max_commits.getD 10)

/-- `get_repo_file_content` (lines 107-125): `none` when the API call
failed; otherwise decode the `content` field (missing field → `""`,
line 122); `decode` models the `b64decode`/UTF-8 chain, `none` being the
caught exception (lines 123-125). -/
def get_repo_file_content (decode : String → Option String) (api : Api)
    (path branch : String) : Option String :=
  match api.contents path branch with
  | none => none
  | some r => decode (r.content.getD "")

/-- `verify_file_existence` (lines 152-168): Python's `if not content`
fails on both `None` and the empty string (lines 164-166); on success the
content is returned for the later steps. -/
def verify_file_existence (decode : String → Option String) (api : Api)
    (path branch : String) : Bool × Option String :=
  match get_repo_file_content decode api path branch with
  | none => (false, none)
  | some c => if c = "" then (false, none) else (true, some c)

/-- The `target_file` sub-dict of the configuration (lines 24-27). -/
structure TargetFile where
  path : String
  branch : String

/-- `VERIFICATION_CONFIG` (lines 19-63): the shape of the configuration
dict as the script reads it. -/
structure Config where
  target_repo : String
  target_file : TargetFile
  required_structures : List String
  content_rules : List ContentRule
  commit_verification : Option CommitRule

/-- The two environment variables read by `load_env` (lines 68-73);
`none` = variable not set. -/
structure Env where
  github_token : Option String
  github_org : Option String

/-- Python truthiness of an optional string: `None` and `""` are falsy,
as tested by `if not github_token` (lines 269, 272). -/
def falsyStr : Option String → Bool
  | none => true
  | some s => s = ""

/-- Observable events of a run, in emission order: the two distinct
environment-error log lines (lines 270 and 273), every network request
(`Ev.net` with the endpoint suffix of line 91), and the start of each
numbered verification step (the `[n/4]` progress lines). -/
inductive Ev where
  | envErrToken
  | envErrOrg
  | net (endpoint : String)
  | step (n : Nat)
deriving DecidableEq

/-- `run_verification` (lines 261-303) with its event trace: the
environment guards first (lines 268-274, no network before them), then the
four steps in order, each `return False` cutting the run short. The
`contents` request happens inside step 1 (line 163 → line 116) and the
`commits` request inside step 4, only when a commit rule is configured
(line 250 → line 137). -/
def run_verification (decode : String → Option String)
    (reSearch reSearchIC : String → String → Bool)
    (env : Env) (api : Api) (config : Config) : Bool × List Ev :=
  if falsyStr env.github_token then (false, [Ev.envErrToken])
  else if falsyStr env.github_org then (false, [Ev.envErrOrg])
  else
    let path := config.target_file.path
    let branch := config.target_file.branch
    let tr1 : List Ev := [Ev.step 1, Ev.net ("contents/" ++ path ++ "?ref=" ++ branch)]
    let r1 := verify_file_existence decode api path branch
    if !r1.1 then (false, tr1)
    else
      let c := r1.2.getD ""
      let tr2 := tr1 ++ [Ev.step 2]
      if !verify_file_structure c config.required_structures then (false, tr2)
      else
        let tr3 := tr2 ++ [Ev.step 3]
        if !verify_content_accuracy reSearch c config.content_rules then (false, tr3)
        else
          match config.commit_verification with
          | none => (verify_commit_record reSearchIC api none, tr3 ++ [Ev.step 4])
          | some cc =>
            let tr4 := tr3 ++ [Ev.step 4,
              Ev.net ("commits?per_page=" ++ toString (cc.max_commits.getD 10))]
            (verify_commit_record reSearchIC api (some cc), tr4)

/-- The `__main__` block (lines 306-309): exit code 0 on success, 1 on
failure. -/
def mainExitCode (decode : String → Option String)
    (reSearch reSearchIC : String → String → Bool)
    (env : Env) (api : Api) (config : Config) : Nat :=
  if (run_verification decode reSearch reSearchIC env api config).1 then 0 else 1

/-- The step numbers recorded in a trace, in order. -/
def stepTrace (tr : List Ev) : List Nat :=
  tr.filterMap (fun e => match e with | Ev.step n => some n | _ => none)

/-- The network events recorded in a trace, in order. -/
def netEvents (tr : List Ev) : List Ev :=
  tr.filter (fun e => match e with | Ev.net _ => true | _ => false)

/-- Spec-side abbreviation: the content handed to the later steps, i.e. the
`file_content` local of `run_verification` once step 1 passed. -/
def fetchedContent (decode : String → Option String) (api : Api) (config : Config) : String :=
  (verify_file_existence decode api config.target_file.path config.target_file.branch).2.getD ""

/-- Spec-side abbreviation: the outcome of step 1 (existence). -/
def stepPass1 (decode : String → Option String) (api : Api) (config : Config) : Bool :=
  (verify_file_existence decode api config.target_file.path config.target_file.branch).1

/-- Spec-side abbreviation: the outcome of step 2 (structure). -/
def stepPass2 (decode : String → Option String) (api : Api) (config : Config) : Bool :=
  verify_file_structure (fetchedContent decode api config) config.required_structures

/-- Spec-side abbreviation: the outcome of step 3 (content accuracy). -/
def stepPass3 (decode : String → Option String) (reSearch : String → String → Bool)
    (api : Api) (config : Config) : Bool :=
  verify_content_accuracy reSearch (fetchedContent decode api config) config.content_rules

/-- Spec-side abbreviation: the outcome of step 4 (commit record). -/
def stepPass4 (reSearchIC : String → String → Bool) (api : Api) (config : Config) : Bool :=
  verify_commit_record reSearchIC api config.commit_verification

example : strContains "abcd" "bc" = true := by decide
example : strContains "abcd" "" = true := by decide
example : strContains "abcd" "ca" = false := by decide
example : splitNl ("a\nb").data = [("a").data, ("b").data] := by decide
example : splitNl ("").data = [[]] := by decide
example : firstDigitRun ("n: 200 x 9").data = some (("200").data) := by decide
example : statScan "n:" "158" (splitNl ("n: 200\nn: 158").data) = true := by decide
example : statScan "n:" "158" (splitNl ("n: 200\nm: 158").data) = false := by decide

/-! ### Helper lemmas -/

theorem statScan_iff (t e : String) (ls : List (List Char)) :
    statScan t e ls = true ↔
      ∃ l ∈ ls, hasSub l t.data = true ∧ firstDigitRun l = some e.data := by
  induction ls with
  | nil => simp [statScan]
  | cons l ls ih =>
    by_cases h1 : hasSub l t.data = true
    · cases hd : firstDigitRun l with
      | none =>
        rw [statScan, if_pos h1, hd, ih]
        constructor
        · rintro ⟨x, hx, hp⟩
          exact ⟨x, List.mem_cons_of_mem _ hx, hp⟩
        · rintro ⟨x, hx, hsub, hrun⟩
          rcases List.mem_cons.mp hx with rfl | hx
          · rw [hd] at hrun
            cases hrun
          · exact ⟨x, hx, hsub, hrun⟩
      | some d =>
        by_cases h2 : d = e.data
        · subst h2
          rw [statScan, if_pos h1, hd]
          show (if e.data = e.data then true else statScan t e ls) = true ↔
            ∃ x ∈ l :: ls, hasSub x t.data = true ∧ firstDigitRun x = some e.data
          rw [if_pos rfl]
          constructor
          · intro _
            exact ⟨l, List.mem_cons_self _ _, h1, hd⟩
          · intro _
            rfl
        · rw [statScan, if_pos h1, hd]
          show (if d = e.data then true else statScan t e ls) = true ↔
            ∃ x ∈ l :: ls, hasSub x t.data = true ∧ firstDigitRun x = some e.data
          rw [if_neg h2, ih]
          constructor
          · rintro ⟨x, hx, hp⟩
            exact ⟨x, List.mem_cons_of_mem _ hx, hp⟩
          · rintro ⟨x, hx, hsub, hrun⟩
            rcases List.mem_cons.mp hx with rfl | hx
            · rw [hd] at hrun
              exact absurd (Option.some.inj hrun) h2
            · exact ⟨x, hx, hsub, hrun⟩
    · rw [statScan, if_neg h1, ih]
      constructor
      · rintro ⟨x, hx, hp⟩
        exact ⟨x, List.mem_cons_of_mem _ hx, hp⟩
      · rintro ⟨x, hx, hsub, hrun⟩
        rcases List.mem_cons.mp hx with rfl | hx
        · exact absurd hsub h1
        · exact ⟨x, hx, hsub, hrun⟩

theorem missing_mem (content : String) (required : List String) (s : String) :
    s ∈ missingStructures content required ↔
      s ∈ required ∧ strContains content s = false := by
  induction required with
  | nil => simp [missingStructures]
  | cons a rest ih =>
    by_cases h : strContains content a = true
    · rw [missingStructures, if_pos h, ih]
      constructor
      · rintro ⟨hs, hc⟩
        exact ⟨List.mem_cons_of_mem _ hs, hc⟩
      · rintro ⟨hs, hc⟩
        rcases List.mem_cons.mp hs with rfl | hs
        · rw [h] at hc
          cases hc
        · exact ⟨hs, hc⟩
    · rw [missingStructures, if_neg h, List.mem_cons, ih]
      constructor
      · rintro (rfl | ⟨hs, hc⟩)
        · exact ⟨List.mem_cons_self _ _, Bool.eq_false_iff.mpr h⟩
        · exact ⟨List.mem_cons_of_mem _ hs, hc⟩
      · rintro ⟨hs, hc⟩
        rcases List.mem_cons.mp hs with rfl | hs
        · exact Or.inl rfl
        · exact Or.inr ⟨hs, hc⟩

theorem missing_sublist (content : String) (required : List String) :
    (missingStructures content required).Sublist required := by
  induction required with
  | nil => exact List.Sublist.refl _
  | cons a rest ih =>
    rw [missingStructures]
    by_cases h : strContains content a = true
    · rw [if_pos h]
      exact ih.cons a
    · rw [if_neg h]
      exact ih.cons₂ a

theorem structure_pass_iff (content : String) (required : List String) :
    verify_file_structure content required = true ↔
      ∀ s ∈ required, strContains content s = true := by
  rw [verify_file_structure, List.isEmpty_iff]
  constructor
  · intro h s hs
    by_contra hc
    have hmem : s ∈ missingStructures content required :=
      (missing_mem content required s).mpr ⟨hs, Bool.eq_false_iff.mpr hc⟩
    rw [h] at hmem
    cases hmem
  · intro h
    cases hm : missingStructures content required with
    | nil => rfl
    | cons x xs =>
      have hx : x ∈ missingStructures content required := by
        rw [hm]
        exact List.mem_cons_self _ _
      have hprop := (missing_mem content required x).mp hx
      rw [h x hprop.1] at hprop
      cases hprop.2

/-! ### Claim theorems -/

/-- C1 (counterexample): with content `"n: 200\nn: 158"`, target `"n:"` and
expected `"158"`, the first line containing the target (`"n: 200"`) has
first digit run `"200" ≠ "158"`, yet the `stat_match` rule matches (the
scan skips the non-qualifying line and succeeds on the later line),
contradicting the claim that it must not match. -/
theorem C1_counterexample :
    contentRuleMatches (fun _ _ => false) "n: 200\nn: 158"
        (splitNl ("n: 200\nn: 158").data) ⟨"stat_match", "n:", "158"⟩ = true ∧
      splitNl ("n: 200\nn: 158").data = [("n: 200").data, ("n: 158").data] ∧
      hasSub ("n: 200").data ("n:").data = true ∧
      firstDigitRun ("n: 200").data = some (("200").data) ∧
      ("200" : String) ≠ "158" := by
  decide

/-- C1 (amended): a `stat_match` rule matches exactly when some line of the
content contains the target label and that line's first digit run equals
the expected value textually; a line containing the label with a different
(or no) digit run is skipped and the scan continues with later lines. -/
theorem C1_stat_match_scan (re : String → String → Bool) (content t e : String) :
    contentRuleMatches re content (splitNl content.data) ⟨"stat_match", t, e⟩ = true ↔
      ∃ l ∈ splitNl content.data, hasSub l t.data = true ∧ firstDigitRun l = some e.data := by
  have h : contentRuleMatches re content (splitNl content.data) ⟨"stat_match", t, e⟩ =
      statScan t e (splitNl content.data) := rfl
  rw [h, statScan_iff]

/-- C2: the structure check passes exactly when every required substring
occurs literally in the content; the reported `missing` list contains
exactly the absent substrings, in configured order (it is a sublist of the
configured list). -/
theorem C2_structure_check (content : String) (required : List String) :
    (verify_file_structure content required = true ↔
        ∀ s ∈ required, strContains content s = true) ∧
      (∀ s, s ∈ missingStructures content required ↔
        s ∈ required ∧ strContains content s = false) ∧
      (missingStructures content required).Sublist required :=
  ⟨structure_pass_iff content required, missing_mem content required,
    missing_sublist content required⟩

theorem contentRulesScan_append (re : String → String → Bool) (c : String)
    (ls : List (List Char)) (pre rest : List ContentRule)
    (h : ∀ x ∈ pre, contentRuleMatches re c ls x = true) :
    contentRulesScan re c ls (pre ++ rest) = contentRulesScan re c ls rest := by
  induction pre with
  | nil => rfl
  | cons r rs ih =>
    have hr := h r (List.mem_cons_self _ _)
    rw [List.cons_append, contentRulesScan, if_pos hr]
    exact ih (fun x hx => h x (List.mem_cons_of_mem _ hx))

theorem contentRulesScan_cons_false (re : String → String → Bool) (c : String)
    (ls : List (List Char)) (r : ContentRule) (rest : List ContentRule)
    (h : contentRuleMatches re c ls r = false) :
    contentRulesScan re c ls (r :: rest) = false := by
  rw [contentRulesScan, if_neg]
  rw [h]
  exact Bool.false_ne_true

theorem contentRulesScan_all (re : String → String → Bool) (c : String)
    (ls : List (List Char)) (rules : List ContentRule)
    (h : ∀ x ∈ rules, contentRuleMatches re c ls x = true) :
    contentRulesScan re c ls rules = true := by
  have happ := contentRulesScan_append re c ls rules [] h
  rw [List.append_nil] at happ
  rw [happ]
  rfl

theorem ruleMatches_target_irrelevant (re : String → String → Bool) (content : String)
    (lines : List (List Char)) (r r2 : ContentRule) (hty : r.ruleType = r2.ruleType)
    (hkind : r.ruleType = "regex_match" ∨ r.ruleType = "text_match")
    (hexp : r.expected = r2.expected) :
    contentRuleMatches re content lines r = contentRuleMatches re content lines r2 := by
  rcases hkind with h | h
  · rw [contentRuleMatches, contentRuleMatches, h, hty.symm.trans h, hexp]
    rfl
  · rw [contentRuleMatches, contentRuleMatches, h, hty.symm.trans h, hexp]
    rfl

theorem contentRulesScan_congr (re : String → String → Bool) (c : String)
    (ls : List (List Char)) (pre post : List ContentRule) (r r2 : ContentRule)
    (h : contentRuleMatches re c ls r = contentRuleMatches re c ls r2) :
    contentRulesScan re c ls (pre ++ r :: post) = contentRulesScan re c ls (pre ++ r2 :: post) := by
  induction pre with
  | nil =>
    rw [List.nil_append, List.nil_append, contentRulesScan, contentRulesScan, h]
  | cons a rs ih =>
    rw [List.cons_append, List.cons_append, contentRulesScan, contentRulesScan, ih]

/-- C3: the content-accuracy step passes trivially on an empty rule list,
passes when every rule matches, and fails fast: once a prefix of matching
rules is followed by a failing rule, the step fails and its result does not
depend on any rule after the failing one (so later rules are never
evaluated). -/
theorem C3_content_fail_fast (re : String → String → Bool) (content : String) :
    verify_content_accuracy re content [] = true ∧
      (∀ rules, (∀ x ∈ rules, contentRuleMatches re content (splitNl content.data) x = true) →
        verify_content_accuracy re content rules = true) ∧
      (∀ pre r post post2,
        (∀ x ∈ pre, contentRuleMatches re content (splitNl content.data) x = true) →
        contentRuleMatches re content (splitNl content.data) r = false →
        verify_content_accuracy re content (pre ++ r :: post) = false ∧
          verify_content_accuracy re content (pre ++ r :: post) =
            verify_content_accuracy re content (pre ++ r :: post2)) := by
  refine ⟨rfl, ?_, ?_⟩
  · intro rules h
    exact contentRulesScan_all re content (splitNl content.data) rules h
  · intro pre r post post2 hpre hr
    have h1 : verify_content_accuracy re content (pre ++ r :: post) = false := by
      rw [verify_content_accuracy, contentRulesScan_append re content _ pre _ hpre]
      exact contentRulesScan_cons_false re content _ r post hr
    have h2 : verify_content_accuracy re content (pre ++ r :: post2) = false := by
      rw [verify_content_accuracy, contentRulesScan_append re content _ pre _ hpre]
      exact contentRulesScan_cons_false re content _ r post2 hr
    exact ⟨h1, h1.trans h2.symm⟩

/-- C3 (witness): with the constantly-false regex engine and content `"z"`,
a first rule that matches followed by a failing `text_match` rule makes the
step fail. -/
theorem C3_witness :
    verify_content_accuracy (fun _ _ => false) "z"
      ([⟨"text_match", "t", "z"⟩] ++ ⟨"text_match", "t", "q"⟩ :: []) = false :=
  ((C3_content_fail_fast (fun _ _ => false) "z").2.2
    [⟨"text_match", "t", "z"⟩] ⟨"text_match", "t", "q"⟩ [] []
    (by decide) (by decide)).1

/-- C8: a `regex_match` rule succeeds exactly when the engine matches the
pattern against the full content and a `text_match` rule exactly when the
expected string is a substring of the full content; neither depends on the
line split (the `lines` argument is irrelevant to both). -/
theorem C8_whole_content_rules (re : String → String → Bool) (content t e : String)
    (lines lines2 : List (List Char)) :
    contentRuleMatches re content lines ⟨"regex_match", t, e⟩ = re e content ∧
      contentRuleMatches re content lines ⟨"text_match", t, e⟩ = strContains content e ∧
      contentRuleMatches re content lines ⟨"regex_match", t, e⟩ =
        contentRuleMatches re content lines2 ⟨"regex_match", t, e⟩ ∧
      contentRuleMatches re content lines ⟨"text_match", t, e⟩ =
        contentRuleMatches re content lines2 ⟨"text_match", t, e⟩ ∧
      verify_content_accuracy re content [⟨"regex_match", t, e⟩] = re e content ∧
      verify_content_accuracy re content [⟨"text_match", t, e⟩] = strContains content e := by
  have hre : ∀ lns, contentRuleMatches re content lns ⟨"regex_match", t, e⟩ = re e content := by
    intro lns
    rfl
  have htx : ∀ lns, contentRuleMatches re content lns ⟨"text_match", t, e⟩ =
      strContains content e := by
    intro lns
    rfl
  refine ⟨hre lines, htx lines, (hre lines).trans (hre lines2).symm,
    (htx lines).trans (htx lines2).symm, ?_, ?_⟩
  · rw [verify_content_accuracy, contentRulesScan, hre]
    cases re e content <;> rfl
  · rw [verify_content_accuracy, contentRulesScan, htx]
    cases strContains content e <;> rfl

/-- C9: for `regex_match` and `text_match` rules the `target` field never
influences the outcome: two rules of the same such kind with the same
expected value evaluate identically, and swapping one for the other
anywhere in the rule list leaves the content-accuracy result unchanged. -/
theorem C9_target_no_outcome (re : String → String → Bool) (content : String)
    (r r2 : ContentRule) (hty : r.ruleType = r2.ruleType)
    (hkind : r.ruleType = "regex_match" ∨ r.ruleType = "text_match")
    (hexp : r.expected = r2.expected) :
    contentRuleMatches re content (splitNl content.data) r =
        contentRuleMatches re content (splitNl content.data) r2 ∧
      ∀ pre post, verify_content_accuracy re content (pre ++ r :: post) =
        verify_content_accuracy re content (pre ++ r2 :: post) := by
  have h := ruleMatches_target_irrelevant re content (splitNl content.data) r r2 hty hkind hexp
  exact ⟨h, fun pre post => contentRulesScan_congr re content _ pre post r r2 h⟩

/-- C9 (witness): two `text_match` rules differing only in their target
give the same outcome on content `"x"`. -/
theorem C9_witness :
    verify_content_accuracy (fun _ _ => false) "x" ([] ++ ⟨"text_match", "a", "x"⟩ :: []) =
      verify_content_accuracy (fun _ _ => false) "x" ([] ++ ⟨"text_match", "b", "x"⟩ :: []) :=
  (C9_target_no_outcome (fun _ _ => false) "x" ⟨"text_match", "a", "x"⟩
    ⟨"text_match", "b", "x"⟩ rfl (Or.inr rfl) rfl).2 [] []

/-- C10: a rule whose type is none of `stat_match`, `regex_match`,
`text_match` never matches, so once the scan reaches it (every earlier rule
matched) the content-accuracy step fails. -/
theorem C10_unknown_rule_type (re : String → String → Bool) (content : String)
    (r : ContentRule) (h1 : r.ruleType ≠ "stat_match") (h2 : r.ruleType ≠ "regex_match")
    (h3 : r.ruleType ≠ "text_match") :
    contentRuleMatches re content (splitNl content.data) r = false ∧
      ∀ pre post, (∀ x ∈ pre, contentRuleMatches re content (splitNl content.data) x = true) →
        verify_content_accuracy re content (pre ++ r :: post) = false := by
  have hm : contentRuleMatches re content (splitNl content.data) r = false := by
    rw [contentRuleMatches, if_neg h1, if_neg h2, if_neg h3]
  refine ⟨hm, ?_⟩
  intro pre post hpre
  rw [verify_content_accuracy, contentRulesScan_append re content _ pre _ hpre]
  exact contentRulesScan_cons_false re content _ r post hm

/-- C10 (witness): a rule of unknown type `"other"` reached first makes the
step fail on content `"z"`. -/
theorem C10_witness :
    verify_content_accuracy (fun _ _ => false) "z" ([] ++ ⟨"other", "t", "e"⟩ :: []) = false :=
  (C10_unknown_rule_type (fun _ _ => false) "z" ⟨"other", "t", "e"⟩
    (by decide) (by decide) (by decide)).2 [] [] (by simp)

theorem scanMsgs_iff (reIC : String → String → Bool) (pat : String) (ms : List String) :
    scanMsgs reIC pat ms = true ↔ ∃ m ∈ ms, reIC pat m = true := by
  induction ms with
  | nil => simp [scanMsgs]
  | cons m ms ih =>
    by_cases h : reIC pat m = true
    · rw [scanMsgs, if_pos h]
      simp only [true_iff]
      exact ⟨m, List.mem_cons_self _ _, h⟩
    · rw [scanMsgs, if_neg h, ih]
      constructor
      · rintro ⟨x, hx, hp⟩
        exact ⟨x, List.mem_cons_of_mem _ hx, hp⟩
      · rintro ⟨x, hx, hp⟩
        rcases List.mem_cons.mp hx with rfl | hx
        · exact absurd hp h
        · exact ⟨x, hx, hp⟩

/-- C4: with a configured commit rule (maximum defaulting to 10), the check
fails when the fetch fails; on a successful fetch it succeeds exactly when
one of the at most N returned messages matches the (case-insensitively
compiled) pattern; and when no message among the first N matches, the
check fails even if a later commit of the repository would match. -/
theorem C4_commit_record (reIC : String → String → Bool) (api : Api) (cfg : CommitRule) :
    (api.commitsOk = false → verify_commit_record reIC api (some cfg) = false) ∧
      (api.commitsOk = true →
        (verify_commit_record reIC api (some cfg) = true ↔
          ∃ m ∈ api.commits.take (cfg.max_commits.getD 10), reIC cfg.msg_pattern m = true)) ∧
      ((∀ m ∈ api.commits.take (cfg.max_commits.getD 10), reIC cfg.msg_pattern m = false) →
        verify_commit_record reIC api (some cfg) = false) := by
  have hiff : api.commitsOk = true →
      (verify_commit_record reIC api (some cfg) = true ↔
        ∃ m ∈ api.commits.take (cfg.max_commits.getD 10), reIC cfg.msg_pattern m = true) := by
    intro h
    rw [verify_commit_record, search_commits, commitsEndpoint, if_pos h]
    exact scanMsgs_iff reIC cfg.msg_pattern _
  refine ⟨?_, hiff, ?_⟩
  · intro h
    rw [verify_commit_record, search_commits, commitsEndpoint, if_neg]
    rw [h]
    exact Bool.false_ne_true
  · intro h
    cases hok : api.commitsOk with
    | false =>
      rw [verify_commit_record, search_commits, commitsEndpoint, if_neg]
      rw [hok]
      exact Bool.false_ne_true
    | true =>
      cases hb : verify_commit_record reIC api (some cfg) with
      | false => rfl
      | true =>
        obtain ⟨m, hm, hr⟩ := (hiff hok).mp hb
        rw [h m hm] at hr
        cases hr

/-- C4 (witness): with a substring matcher, pattern `"bb"`, full commit
list `["aa", "bb"]` and maximum 1, only `"aa"` is returned, so the check
fails although the second commit would match. -/
theorem C4_witness :
    verify_commit_record (fun p m => strContains m p)
      ⟨fun _ _ => none, true, ["aa", "bb"]⟩ (some ⟨"bb", some 1⟩) = false :=
  (C4_commit_record (fun p m => strContains m p)
    ⟨fun _ _ => none, true, ["aa", "bb"]⟩ ⟨"bb", some 1⟩).2.2 (by decide)

/-- C5: the existence step fails exactly when the fetched content is
absent (`none`) or empty; a failed API call, a response without a content
field (given that decoding the empty payload yields the empty string), and
a decoding failure each make it fail; when it passes it hands the decoded
content to the later steps. -/
theorem C5_existence_step (decode : String → Option String) (api : Api)
    (path branch : String) :
    ((verify_file_existence decode api path branch).1 = false ↔
        get_repo_file_content decode api path branch = none ∨
          get_repo_file_content decode api path branch = some "") ∧
      (api.contents path branch = none →
        verify_file_existence decode api path branch = (false, none)) ∧
      (∀ r, api.contents path branch = some r → r.content = none → decode "" = some "" →
        (verify_file_existence decode api path branch).1 = false) ∧
      (∀ r, api.contents path branch = some r → decode (r.content.getD "") = none →
        verify_file_existence decode api path branch = (false, none)) ∧
      ((verify_file_existence decode api path branch).1 = true →
        (verify_file_existence decode api path branch).2 =
          get_repo_file_content decode api path branch) := by
  refine ⟨?_, ?_, ?_, ?_, ?_⟩
  · cases hg : get_repo_file_content decode api path branch with
    | none => simp [verify_file_existence, hg]
    | some c =>
      by_cases hc : c = ""
      · subst hc
        simp [verify_file_existence, hg]
      · simp [verify_file_existence, hg, hc]
  · intro h
    rw [verify_file_existence, get_repo_file_content, h]
  · intro r hr hc hd
    have hg : get_repo_file_content decode api path branch = some "" := by
      rw [get_repo_file_content, hr]
      show decode (r.content.getD "") = some ""
      rw [hc]
      exact hd
    rw [verify_file_existence, hg]
    rfl
  · intro r hr hd
    have hg : get_repo_file_content decode api path branch = none := by
      rw [get_repo_file_content, hr]
      exact hd
    rw [verify_file_existence, hg]
  · intro h
    cases hg : get_repo_file_content decode api path branch with
    | none =>
      rw [verify_file_existence, hg] at h
      cases h
    | some c =>
      by_cases hc : c = ""
      · subst hc
        rw [verify_file_existence, hg] at h
        exact absurd h (by decide)
      · rw [verify_file_existence, hg]
        show (if c = "" then ((false, none) : Bool × Option String) else (true, some c)).2 = some c
        rw [if_neg hc]

/-- C5 (witness): a failed `contents` call makes the existence step return
`(false, none)`. -/
theorem C5_witness :
    verify_file_existence (fun s => some s) ⟨fun _ _ => none, true, []⟩ "p" "b" =
      (false, none) :=
  (C5_existence_step (fun s => some s) ⟨fun _ _ => none, true, []⟩ "p" "b").2.1 rfl

/-- C6: a missing `GITHUB_TOKEN` makes the run fail with exactly the
token-error log event, a present non-empty token with a missing
`GITHUB_ORG` fails with exactly the (distinct) org-error log event, and in
either missing-variable case the trace contains no network event — all
regardless of the target configuration and of the remote API. -/
theorem C6_env_guard (decode : String → Option String)
    (reSearch reSearchIC : String → String → Bool)
    (env : Env) (api : Api) (config : Config) :
    (env.github_token = none →
        run_verification decode reSearch reSearchIC env api config =
          (false, [Ev.envErrToken])) ∧
      (∀ t, env.github_token = some t → t ≠ "" → env.github_org = none →
        run_verification decode reSearch reSearchIC env api config =
          (false, [Ev.envErrOrg])) ∧
      Ev.envErrToken ≠ Ev.envErrOrg ∧
      ((env.github_token = none ∨ env.github_org = none) →
        netEvents (run_verification decode reSearch reSearchIC env api config).2 = []) := by
  have htok : env.github_token = none →
      run_verification decode reSearch reSearchIC env api config =
        (false, [Ev.envErrToken]) := by
    intro h
    rw [run_verification, h]
    rfl
  have horg : ∀ t, env.github_token = some t → t ≠ "" → env.github_org = none →
      run_verification decode reSearch reSearchIC env api config =
        (false, [Ev.envErrOrg]) := by
    intro t ht hne h
    have hfal : falsyStr env.github_token = false := by
      rw [ht, falsyStr]
      exact decide_eq_false hne
    rw [run_verification, hfal, h]
    rfl
  refine ⟨htok, horg, by decide, ?_⟩
  rintro (h | h)
  · rw [htok h]
    rfl
  · cases ht : env.github_token with
    | none =>
      rw [htok ht]
      rfl
    | some t =>
      by_cases hne : t = ""
      · subst hne
        rw [run_verification, ht]
        rfl
      · rw [horg t ht hne h]
        rfl

/-- C6 (witness): with both variables missing, the run fails with exactly
the token-error event. -/
theorem C6_witness :
    run_verification (fun s => some s) (fun _ _ => false) (fun _ _ => false)
      ⟨none, none⟩ ⟨fun _ _ => none, true, []⟩ ⟨"r", ⟨"p", "b"⟩, [], [], none⟩ =
      (false, [Ev.envErrToken]) :=
  (C6_env_guard (fun s => some s) (fun _ _ => false) (fun _ _ => false)
    ⟨none, none⟩ ⟨fun _ _ => none, true, []⟩ ⟨"r", ⟨"p", "b"⟩, [], [], none⟩).1 rfl

/-- C7: with valid credentials the four steps run in the fixed order
1, 2, 3, 4, the step trace stopping right after the first failing step;
the run succeeds exactly when all four steps pass; the process exit code is
0 exactly on success, is always 0 or 1, and is 1 whenever a credential is
missing or empty. -/
theorem C7_pipeline (decode : String → Option String)
    (reSearch reSearchIC : String → String → Bool)
    (env : Env) (api : Api) (config : Config)
    (htok : falsyStr env.github_token = false)
    (horg : falsyStr env.github_org = false) :
    (stepTrace (run_verification decode reSearch reSearchIC env api config).2 =
        if stepPass1 decode api config = false then [1]
        else if stepPass2 decode api config = false then [1, 2]
        else if stepPass3 decode reSearch api config = false then [1, 2, 3]
        else [1, 2, 3, 4]) ∧
      ((run_verification decode reSearch reSearchIC env api config).1 = true ↔
        stepPass1 decode api config = true ∧ stepPass2 decode api config = true ∧
          stepPass3 decode reSearch api config = true ∧
          stepPass4 reSearchIC api config = true) ∧
      (mainExitCode decode reSearch reSearchIC env api config = 0 ↔
        (run_verification decode reSearch reSearchIC env api config).1 = true) ∧
      (mainExitCode decode reSearch reSearchIC env api config = 0 ∨
        mainExitCode decode reSearch reSearchIC env api config = 1) ∧
      (∀ env2 : Env,
        falsyStr env2.github_token = true ∨ falsyStr env2.github_org = true →
        mainExitCode decode reSearch reSearchIC env2 api config = 1) := by
  have hexit : (mainExitCode decode reSearch reSearchIC env api config = 0 ↔
      (run_verification decode reSearch reSearchIC env api config).1 = true) ∧
      (mainExitCode decode reSearch reSearchIC env api config = 0 ∨
        mainExitCode decode reSearch reSearchIC env api config = 1) := by
    rw [mainExitCode]
    cases (run_verification decode reSearch reSearchIC env api config).1 <;> simp
  have henv2 : ∀ env2 : Env,
      falsyStr env2.github_token = true ∨ falsyStr env2.github_org = true →
      mainExitCode decode reSearch reSearchIC env2 api config = 1 := by
    intro env2 h
    rcases h with h | h
    · rw [mainExitCode, run_verification, h]
      rfl
    · cases ht : falsyStr env2.github_token with
      | true =>
        rw [mainExitCode, run_verification, ht]
        rfl
      | false =>
        rw [mainExitCode, run_verification, ht, h]
        rfl
  have hmain : (stepTrace (run_verification decode reSearch reSearchIC env api config).2 =
      if stepPass1 decode api config = false then [1]
      else if stepPass2 decode api config = false then [1, 2]
      else if stepPass3 decode reSearch api config = false then [1, 2, 3]
      else [1, 2, 3, 4]) ∧
      ((run_verification decode reSearch reSearchIC env api config).1 = true ↔
        stepPass1 decode api config = true ∧ stepPass2 decode api config = true ∧
          stepPass3 decode reSearch api config = true ∧
          stepPass4 reSearchIC api config = true) := by
    by_cases h1 : stepPass1 decode api config = false
    · have h1' : (verify_file_existence decode api config.target_file.path
          config.target_file.branch).1 = false := h1
      have hrun : run_verification decode reSearch reSearchIC env api config =
          (false, [Ev.step 1, Ev.net ("contents/" ++ config.target_file.path ++
            "?ref=" ++ config.target_file.branch)]) := by
        simp [run_verification, htok, horg, h1']
      rw [hrun, if_pos h1]
      constructor
      · rfl
      · simp [h1]
    · have h1t : stepPass1 decode api config = true := Bool.not_eq_false _ ▸ h1
      have h1' : (verify_file_existence decode api config.target_file.path
          config.target_file.branch).1 = true := h1t
      by_cases h2 : stepPass2 decode api config = false
      · have h2' : verify_file_structure
            ((verify_file_existence decode api config.target_file.path
              config.target_file.branch).2.getD "") config.required_structures = false := h2
        have hrun : run_verification decode reSearch reSearchIC env api config =
            (false, [Ev.step 1, Ev.net ("contents/" ++ config.target_file.path ++
              "?ref=" ++ config.target_file.branch), Ev.step 2]) := by
          simp [run_verification, htok, horg, h1', h2']
        rw [hrun, if_neg h1, if_pos h2]
        constructor
        · rfl
        · simp [h2]
      · have h2t : stepPass2 decode api config = true := Bool.not_eq_false _ ▸ h2
        have h2' : verify_file_structure
            ((verify_file_existence decode api config.target_file.path
              config.target_file.branch).2.getD "") config.required_structures = true := h2t
        by_cases h3 : stepPass3 decode reSearch api config = false
        · have h3' : verify_content_accuracy reSearch
              ((verify_file_existence decode api config.target_file.path
                config.target_file.branch).2.getD "") config.content_rules = false := h3
          have hrun : run_verification decode reSearch reSearchIC env api config =
              (false, [Ev.step 1, Ev.net ("contents/" ++ config.target_file.path ++
                "?ref=" ++ config.target_file.branch), Ev.step 2, Ev.step 3]) := by
            simp [run_verification, htok, horg, h1', h2', h3']
          rw [hrun, if_neg h1, if_neg h2, if_pos h3]
          constructor
          · rfl
          · simp [h3]
        · have h3t : stepPass3 decode reSearch api config = true := Bool.not_eq_false _ ▸ h3
          have h3' : verify_content_accuracy reSearch
              ((verify_file_existence decode api config.target_file.path
                config.target_file.branch).2.getD "") config.content_rules = true := h3t
          cases hcv : config.commit_verification with
          | none =>
            have hrun : run_verification decode reSearch reSearchIC env api config =
                (true, [Ev.step 1, Ev.net ("contents/" ++ config.target_file.path ++
                  "?ref=" ++ config.target_file.branch), Ev.step 2, Ev.step 3,
                  Ev.step 4]) := by
              simp [run_verification, htok, horg, h1', h2', h3', hcv, verify_commit_record]
            have h4t : stepPass4 reSearchIC api config = true := by
              rw [stepPass4, hcv]
              rfl
            rw [hrun, if_neg h1, if_neg h2, if_neg h3]
            constructor
            · rfl
            · simp [h1t, h2t, h3t, h4t]
          | some cc =>
            have hrun : run_verification decode reSearch reSearchIC env api config =
                (verify_commit_record reSearchIC api (some cc),
                  [Ev.step 1, Ev.net ("contents/" ++ config.target_file.path ++
                    "?ref=" ++ config.target_file.branch), Ev.step 2, Ev.step 3,
                    Ev.step 4, Ev.net ("commits?per_page=" ++
                      toString (cc.max_commits.getD 10))]) := by
              simp [run_verification, htok, horg, h1', h2', h3', hcv]
            have h4 : stepPass4 reSearchIC api config =
                verify_commit_record reSearchIC api (some cc) := by
              rw [stepPass4, hcv]
            rw [hrun, if_neg h1, if_neg h2, if_neg h3]
            constructor
            · rfl
            · rw [← h4]
              simp [h1t, h2t, h3t]
  exact ⟨hmain.1, hmain.2, hexit.1, hexit.2, henv2⟩

/-- C7 (witness): with valid credentials, a fetchable non-empty file, no
required structures, no content rules and no commit rule, the exit code is
0 exactly when the run succeeds. -/
theorem C7_witness :
    mainExitCode (fun s => some s) (fun _ _ => true) (fun _ _ => true)
        ⟨some "t", some "o"⟩ ⟨fun _ _ => some ⟨some "x"⟩, true, []⟩
        ⟨"r", ⟨"p", "b"⟩, [], [], none⟩ = 0 ↔
      (run_verification (fun s => some s) (fun _ _ => true) (fun _ _ => true)
        ⟨some "t", some "o"⟩ ⟨fun _ _ => some ⟨some "x"⟩, true, []⟩
        ⟨"r", ⟨"p", "b"⟩, [], [], none⟩).1 = true :=
  (C7_pipeline (fun s => some s) (fun _ _ => true) (fun _ _ => true)
    ⟨some "t", some "o"⟩ ⟨fun _ _ => some ⟨some "x"⟩, true, []⟩
    ⟨"r", ⟨"p", "b"⟩, [], [], none⟩ (by decide) (by decide)).2.2.1

end Verify
